import Mathlib

/-!
Verification of the TomatoClock focus-timer application (`src/tomato.py`).

The development embeds the program in two layers:

* a pure, sequential model of the functions that do not interact with the
  timer thread's cancellation flag: the CSV-backed target log
  (`add_target`, `get_last_target`, `search_targets`), the configuration
  dialog (`submit_config`) and the countdown emission sequence
  (`countdown`, `run_focus_timer` specialised to the case where
  `stop_event` is never set);

* a small-step interleaving model (`Sys`, `tstep`, `step`, `run_acts`) of
  the timer thread `_run_focus_timer` / `_countdown` together with the
  main-thread actions that touch shared state (`start_focus`'s
  `stop_event.set()` / `clear()` / thread spawn, the configuration
  writes, and a `cancel` action).

The CSV file is modelled as the list of its records (each record a list of
field strings); GUI rendering, `tkinter` plumbing, real time and audio
output are represented only through the observable events they receive.
-/

set_option maxRecDepth 8000

/-! ### String helpers modelling Python primitives (ASCII fragment) -/

/-- Python `str.lower()` (ASCII letters; the log entries and queries the
claims mention are ASCII). -/
def pyLower (s : String) : String := ⟨s.data.map Char.toLower⟩

/-- Python `needle in hay` on strings: contiguous-substring containment. -/
def pyIn (needle hay : String) : Bool :=
  (List.range (hay.length + 1)).any (fun i => needle.data.isPrefixOf (hay.data.drop i))

/-- Python `str.strip()` with no argument: remove leading and trailing
whitespace (the ASCII whitespace characters the claims involve). -/
def pyStrip (s : String) : String :=
  ⟨((s.data.dropWhile Char.isWhitespace).reverse.dropWhile Char.isWhitespace).reverse⟩

/-- Digits of a decimal literal to a number; `none` when empty or any
character is not a digit. -/
def digitsToNat (cs : List Char) : Option Nat :=
  if cs ≠ [] ∧ cs.all Char.isDigit then
    some (cs.foldl (fun a c => a * 10 + (c.toNat - 48)) 0)
  else none

/-- Python `int(s)` on a decimal string: surrounding whitespace stripped,
one optional sign, then digits; anything else raises `ValueError`,
modelled as `none`. -/
def pyInt (s : String) : Option Int :=
  match (pyStrip s).data with
  | '-' :: cs => (digitsToNat cs).map (fun n => -(n : Int))
  | '+' :: cs => (digitsToNat cs).map (fun n => (n : Int))
  | cs => (digitsToNat cs).map (fun n => (n : Int))

/-! ### The target log (`targets.csv`)

A file is a list of records; each record a list of field strings.  The
header record written by `_ensure_csv_exists` is `["Date", "Time",
"Target"]`. -/

/-- `TomatoFocusApp.add_target`: strip the entry text; when non-empty,
append one record `[date, time, text]` to the CSV; otherwise show the
warning `"Please enter a target."` and write nothing.  The current date
and time strings are arguments (the program reads the wall clock).
Returns the new file contents and the warning message, if any. -/
def add_target (entry date_str time_str : String) (file : List (List String)) :
    List (List String) × Option String :=
  let target_text := pyStrip entry
  if target_text ≠ "" then
    (file ++ [[date_str, time_str, target_text]], none)
  else
    (file, some "Please enter a target.")

/-- `TomatoFocusApp._get_last_target`: `none` (the Python `None`) when the
file is absent or holds no data record; otherwise field 2 of the last
record after the header.  `.error` models an uncaught `IndexError` from
`rows[-1][2]` on a short record. -/
def get_last_target (file : Option (List (List String))) :
    Except String (Option String) :=
  match file with
  | none => .ok none
  | some allRows =>
    let rows := allRows.drop 1
    match rows.getLast? with
    | some row =>
      match row[2]? with
      | some tgt => .ok (some tgt)
      | none => .error "IndexError"
    | none => .ok none

/-- The body of `_search_targets`'s row loop: each record is unpacked as
`date_str, time_str, target_text = row` (a record whose field count is not
three raises `ValueError`, modelled as `.error`); a record matches when
`query.lower() in target_text.lower()`; matches keep file order and are
rendered as `f"{date_str} {time_str} - {target_text}"`. -/
def search_rows (query : String) : List (List String) → Except String (List String)
  | [] => .ok []
  | row :: rest =>
    match row with
    | [date_str, time_str, target_text] =>
      match search_rows query rest with
      | .ok lines =>
        if pyIn (pyLower query) (pyLower target_text) then
          .ok ((date_str ++ " " ++ time_str ++ " - " ++ target_text) :: lines)
        else
          .ok lines
      | .error e => .error e
    | _ => .error "ValueError: unpack"

/-- `TomatoFocusApp._search_targets`: `next(reader)` with no default
consumes the header record (raising `StopIteration` on a file with no
records at all), then the row loop of `search_rows`. -/
def search_targets (query : String) (file : List (List String)) :
    Except String (List String) :=
  match file with
  | [] => .error "StopIteration"
  | _ :: records => search_rows query records

/-- `true` exactly when the operation returned normally. -/
def okB : Except String (List String) → Bool
  | .ok _ => true
  | .error _ => false

/-! ### The countdown, sequentially (`stop_event` never set) -/

/-- `f"{n:02d}"`: decimal, zero-padded to two digits. -/
def fmtTwo (n : Nat) : String := if n < 10 then "0" ++ toString n else toString n

/-- The label text of one tick: `f"{mode_label} Time Left:
{minutes:02d}:{seconds:02d}"` with `minutes, seconds = divmod(remaining, 60)`. -/
def timeStr (mode_label : String) (remaining : Nat) : String :=
  mode_label ++ " Time Left: " ++ fmtTwo (remaining / 60) ++ ":" ++ fmtTwo (remaining % 60)

/-- `TomatoFocusApp._countdown` with `stop_event` never set: the loop
`for remaining in range(total_seconds, 0, -1)` emits one update per value
`total_seconds, ..., 1`, then the unconditional final update
`f"{mode_label} Time Left: 00:00"`. -/
def countdown (total_seconds : Nat) (mode_label : String) : List String :=
  ((List.range' 1 total_seconds).reverse.map (timeStr mode_label))
    ++ [mode_label ++ " Time Left: 00:00"]

/-- The `remaining` value behind each update of `countdown total_seconds`:
`total_seconds, ..., 1, 0`. -/
def countdownRems (total_seconds : Nat) : List Nat :=
  (List.range' 1 total_seconds).reverse ++ [0]

/-- Fixed notification resource, `SOUND_FILE_PATH` in the source. -/
def SOUND_FILE_PATH : String := "alert.mp3"

/-- What the shell observes from an uncancelled run: label updates, and
the playback request issued at the Focus→Rest boundary. -/
inductive SEvent
  | upd (line : String)
  | soundAttempt (path : String)
deriving DecidableEq, Repr

/-- `TomatoFocusApp._play_sound`: loading/playing the audio may raise
(`audio = some e` carries the exception text); the `except` clause catches
it and prints `f"Error playing sound: {e}"`.  The returned list is the log
output; no exception escapes. -/
def play_sound (audio : Option String) : List String :=
  match audio with
  | none => []
  | some e => ["Error playing sound: " ++ e]

/-- Events and log output of one run. -/
structure SeqRun where
  events : List SEvent
  logs : List String
deriving DecidableEq, Repr

/-- `TomatoFocusApp._run_focus_timer` in the run-to-completion case
(`stop_event` never set): focus countdown from `focus_minutes * 60`
seconds, then — because `stop_event.is_set()` is false — the sound attempt
unless `mute_sound` is set, then the rest countdown from
`rest_minutes * 60` seconds.  `Int.toNat` mirrors `range(total, 0, -1)`
being empty for a non-positive bound. -/
def run_focus_timer (focus_minutes rest_minutes : Int) (mute_sound : Bool)
    (audio : Option String) : SeqRun :=
  let focusEvs := (countdown (focus_minutes * 60).toNat "Focus").map SEvent.upd
  let soundPart : List SEvent × List String :=
    if mute_sound = false then ([SEvent.soundAttempt SOUND_FILE_PATH], play_sound audio)
    else ([], [])
  let restEvs := (countdown (rest_minutes * 60).toNat "Rest").map SEvent.upd
  { events := focusEvs ++ soundPart.1 ++ restEvs, logs := soundPart.2 }

/-! ### The configuration dialog -/

/-- The mutable duration configuration held on the controller object. -/
structure AppConfig where
  focus_minutes : Int
  rest_minutes : Int
deriving DecidableEq, Repr

/-- `submit_config` in `open_config_window`: `int()` both entry texts; a
`ValueError` from either is caught, an error box is shown and nothing is
assigned; otherwise both fields are assigned and the info box is shown.
Returns the new configuration and the message displayed. -/
def submit_config (focusText restText : String) (cfg : AppConfig) :
    AppConfig × String :=
  match pyInt focusText with
  | none => (cfg, "Please enter valid integers.")
  | some new_focus =>
    match pyInt restText with
    | none => (cfg, "Please enter valid integers.")
    | some new_rest =>
      ({ focus_minutes := new_focus, rest_minutes := new_rest }, "Settings updated!")

/-! ### The timer under concurrency

A small-step interleaving model of the timer thread(s) and the actions of
the Tk main thread that touch shared state.  Shared state (`Sys`) carries
the fields the Python object holds on `self`: `stop_event` (a
`threading.Event`, a shared boolean), the duration fields, the mute flag,
and the position of the main thread inside `start_focus`.  Each spawned
timer thread is a program counter over `_run_focus_timer` / `_countdown`
plus the (model-side) index of the `start_focus` call that spawned it,
used only to attribute observed events to a run.  Each observable event —
a marshalled label update, the `time.sleep(1)` suspension, the playback
request — is tagged with that run index. -/

/-- The two countdown phases run by `_run_focus_timer`. -/
inductive Phase
  | Focus
  | Rest
deriving DecidableEq, Repr

/-- Program counter of one timer thread.

* `readTotal` — about to execute `total_seconds = self.focus_minutes * 60`;
* `cdCheck ph k` — head of `_countdown`'s loop with `k` values left to
  draw (the next displayed `remaining` is `k`); `k = 0` means the range is
  exhausted and the unconditional final `00:00` update is next;
* `cdEmit ph k` — the `stop_event.is_set()` check was passed; the update
  for `remaining = k` and the `time.sleep(1)` are next;
* `soundGate` — back in `_run_focus_timer`, about to evaluate
  `not self.stop_event.is_set() and not self.mute_sound.get()`;
* `playing` — inside `_play_sound`, about to issue the playback request;
* `restGate` — about to evaluate `not self.stop_event.is_set()` and, when
  it holds, `total_seconds = self.rest_minutes * 60`;
* `done` — the thread function returned. -/
inductive TPc
  | readTotal
  | cdCheck (ph : Phase) (k : Nat)
  | cdEmit (ph : Phase) (k : Nat)
  | soundGate
  | playing
  | restGate
  | done
deriving DecidableEq, Repr

/-- One spawned timer thread: the index of the `start_focus` call that
created it, and its program counter. -/
structure TimerThread where
  run : Nat
  pc : TPc
deriving DecidableEq, Repr

/-- Observable events, tagged with the run that produced them:
`update r ph k` is the marshalled label update showing `remaining = k` of
phase `ph`; `sleepE r` the `time.sleep(1)` suspension; `soundReq r` the
playback request of `_play_sound`. -/
inductive Event
  | update (r : Nat) (ph : Phase) (remaining : Nat)
  | sleepE (r : Nat)
  | soundReq (r : Nat)
deriving DecidableEq, Repr

/-- Position of the main thread inside `start_focus`: it executes
`stop_event.set()`, then `stop_event.clear()`, then spawns the thread. -/
inductive MainPc
  | idle
  | afterSet
  | afterClear
deriving DecidableEq, Repr

/-- The shared state. -/
structure Sys where
  stop_event : Bool
  focus_minutes : Int
  rest_minutes : Int
  mute_sound : Bool
  main_pc : MainPc
  threads : List TimerThread
  next_run : Nat
  events : List Event
deriving DecidableEq, Repr

/-- One step of a timer thread, following `_run_focus_timer` /
`_countdown` statement by statement; returns the thread's new state and
the events the step emits.  All reads of `self.focus_minutes`,
`self.rest_minutes`, `self.mute_sound` and `self.stop_event` take the
current shared value, exactly as the Python attribute accesses do;
`Int.toNat` mirrors `range(total, 0, -1)` being empty for a non-positive
bound. -/
def tstep (s : Sys) (t : TimerThread) : TimerThread × List Event :=
  match t.pc with
  | .readTotal =>
    ({ t with pc := .cdCheck .Focus (s.focus_minutes * 60).toNat }, [])
  | .cdCheck ph 0 =>
    ({ t with pc := match ph with | .Focus => .soundGate | .Rest => .done },
     [.update t.run ph 0])
  | .cdCheck ph (k + 1) =>
    if s.stop_event then
      ({ t with pc := match ph with | .Focus => .soundGate | .Rest => .done }, [])
    else
      ({ t with pc := .cdEmit ph (k + 1) }, [])
  | .cdEmit ph k =>
    ({ t with pc := .cdCheck ph (k - 1) }, [.update t.run ph k, .sleepE t.run])
  | .soundGate =>
    if !s.stop_event && !s.mute_sound then
      ({ t with pc := .playing }, [])
    else
      ({ t with pc := .restGate }, [])
  | .playing =>
    ({ t with pc := .restGate }, [.soundReq t.run])
  | .restGate =>
    if s.stop_event then
      ({ t with pc := .done }, [])
    else
      ({ t with pc := .cdCheck .Rest (s.rest_minutes * 60).toNat }, [])
  | .done => (t, [])

/-- Scheduler actions.  `thr i` lets timer thread `i` take a step.
`startSet`, `startClear`, `startSpawn` are the three shared-state writes
of one `start_focus` call, in program order.  `cancel` is modelled from
the spec: the spec's `cancel()` invalidates the current run without
scheduling a new one, which over this code is `stop_event.set()` alone
(`src/tomato.py` itself exposes no cancel entry point).  `setConfig`
is `submit_config`'s pair of assignments with already-parsed integers;
`setMute` the mute checkbox. -/
inductive Act
  | thr (i : Nat)
  | startSet
  | startClear
  | startSpawn
  | cancel
  | setConfig (f r : Int)
  | setMute (b : Bool)
deriving DecidableEq, Repr

/-- One interleaving step of the whole system.  An action that is not
enabled (a thread index out of range, a `start_focus` micro-step out of
order) leaves the state unchanged. -/
def step (s : Sys) (a : Act) : Sys :=
  match a with
  | .thr i =>
    match s.threads[i]? with
    | none => s
    | some t =>
      let r := tstep s t
      { s with threads := s.threads.set i r.1, events := s.events ++ r.2 }
  | .startSet =>
    if s.main_pc = .idle then { s with stop_event := true, main_pc := .afterSet } else s
  | .startClear =>
    if s.main_pc = .afterSet then { s with stop_event := false, main_pc := .afterClear } else s
  | .startSpawn =>
    if s.main_pc = .afterClear then
      { s with main_pc := .idle,
               threads := s.threads ++ [{ run := s.next_run, pc := .readTotal }],
               next_run := s.next_run + 1 }
    else s
  | .cancel => { s with stop_event := true }
  | .setConfig f r => { s with focus_minutes := f, rest_minutes := r }
  | .setMute b => { s with mute_sound := b }

/-- Run a schedule of actions from a state. -/
def run_acts (s : Sys) : List Act → Sys
  | [] => s
  | a :: rest => run_acts (step s a) rest

/-! ### Classifying events and schedules -/

/-- The run an event is tagged with. -/
def eventRun : Event → Nat
  | .update r _ _ => r
  | .sleepE r => r
  | .soundReq r => r

/-- Is this event a progress update of run `r`? -/
def updOf (r : Nat) : Event → Bool
  | .update r' _ _ => r' == r
  | _ => false

/-- Is this event the sleep suspension of run `r`? -/
def sleepOf (r : Nat) : Event → Bool
  | .sleepE r' => r' == r
  | _ => false

/-- Is this event the playback request of run `r`? -/
def soundOf (r : Nat) : Event → Bool
  | .soundReq r' => r' == r
  | _ => false

/-- Actions other than the superseding parts of a fresh `start_focus`
(clearing the flag, spawning a thread). -/
def noNewStart : Act → Bool
  | .startClear => false
  | .startSpawn => false
  | _ => true

/-- Program counters inside the Focus countdown (the run has not yet
reached the Focus→Rest boundary decision). -/
def inFocusCountdown : TPc → Bool
  | .readTotal => true
  | .cdCheck .Focus _ => true
  | .cdEmit .Focus _ => true
  | _ => false

/-- After cancellation (`stop_event` true and never cleared), an upper
bound on the label updates a thread at this program counter can still
emit: the in-flight iteration's update and, when the range was already on
its last value, the unguarded final `00:00`. -/
def ub : TPc → Nat
  | .readTotal => 1
  | .cdCheck _ 0 => 1
  | .cdCheck _ (_ + 1) => 0
  | .cdEmit _ 0 => 2
  | .cdEmit _ 1 => 2
  | .cdEmit _ (_ + 2) => 1
  | _ => 0

/-- Likewise, an upper bound on the `time.sleep(1)` suspensions still to
come once `stop_event` is set: only the in-flight iteration can sleep. -/
def sb : TPc → Nat
  | .cdEmit _ _ => 1
  | _ => 0

/-- `ub` of a thread when it belongs to run `r`, else `0`. -/
def ubOf (r : Nat) (t : TimerThread) : Nat := if t.run = r then ub t.pc else 0

/-- `sb` of a thread when it belongs to run `r`, else `0`. -/
def sbOf (r : Nat) (t : TimerThread) : Nat := if t.run = r then sb t.pc else 0

/-- Remaining update budget of run `r` over all threads. -/
def sumUb (r : Nat) (ts : List TimerThread) : Nat := (ts.map (ubOf r)).sum

/-- Remaining sleep budget of run `r` over all threads. -/
def sumSb (r : Nat) (ts : List TimerThread) : Nat := (ts.map (sbOf r)).sum

/-- Does the event list avoid any update of run `oldR` strictly after the
first update of run `newR`?  (The invalidation property the spec states
for a superseding `start()`.) -/
def noStaleAfter (oldR newR : Nat) : List Event → Bool
  | [] => true
  | e :: rest =>
    if updOf newR e then rest.all (fun e2 => !(updOf oldR e2))
    else noStaleAfter oldR newR rest

/-! ### Helper lemmas -/

/-- The empty query is a substring of every text (so it matches every entry). -/
theorem pyIn_empty_left (s : String) : pyIn "" s = true := by
  apply List.any_eq_true.mpr
  exact ⟨0, List.mem_range.mpr (Nat.succ_pos _), by simp [List.isPrefixOf]⟩

/-- The hard-coded final update equals the `divmod`-derived formatting of
`remaining = 0`. -/
theorem final_update_eq_timeStr (lbl : String) :
    lbl ++ " Time Left: 00:00" = timeStr lbl 0 := by
  show lbl ++ " Time Left: 00:00" = lbl ++ " Time Left: " ++ fmtTwo (0 / 60) ++ ":" ++ fmtTwo (0 % 60)
  rw [String.append_assoc, String.append_assoc, String.append_assoc]
  congr 1

/-- Every update of `countdown` is the `divmod` formatting of its
`remaining` value: the loop part by construction, the final `00:00` by
`final_update_eq_timeStr`. -/
theorem countdown_eq_rems_map (n : Nat) (lbl : String) :
    countdown n lbl = (countdownRems n).map (timeStr lbl) := by
  simp only [countdown, countdownRems, List.map_append, List.map_cons, List.map_nil,
    final_update_eq_timeStr]

/-- `countdownRems` has `n + 1` elements. -/
theorem countdownRems_length (n : Nat) : (countdownRems n).length = n + 1 := by
  simp [countdownRems]

/-- The `remaining` values of one countdown are strictly decreasing. -/
theorem countdownRems_sorted (n : Nat) :
    List.Pairwise (· > ·) (countdownRems n) := by
  have h1 : List.Pairwise (· > ·) ((List.range' 1 n).reverse) := by
    rw [List.pairwise_reverse]
    exact List.pairwise_lt_range' 1 n
  rw [countdownRems, List.pairwise_append]
  refine ⟨h1, List.pairwise_singleton _ _, ?_⟩
  intro a ha b hb
  simp only [List.mem_singleton] at hb
  subst hb
  have := List.mem_range'.mp (List.mem_reverse.mp ha)
  omega

/-- The last `remaining` value of a countdown is `0` (the `00:00` update). -/
theorem countdownRems_last (n : Nat) : (countdownRems n).getLast? = some 0 :=
  List.getLast?_concat _

/-! ### C3: updates emitted by a full, uncancelled run -/

/-- C3 is off by one: with `focus_minutes = 1` (so `focusSeconds = 60`)
the Focus phase emits 61 updates — the loop's 60 (remaining 60 down to 1)
plus the unconditional final `00:00` — not 60; a full muted run emits 122
updates, not 120. -/
theorem focus_updates_off_by_one :
    (countdown 60 "Focus").length = 61
    ∧ ¬((countdown 60 "Focus").length = 60)
    ∧ (run_focus_timer 1 1 true none).events.length = 122
    ∧ ¬((run_focus_timer 1 1 true none).events.length = 60 + 60) := by
  have h1 : (countdown 60 "Focus").length = 61 := by simp [countdown]
  have h2 : (run_focus_timer 1 1 true none).events.length = 122 := by
    simp [run_focus_timer, countdown]
  exact ⟨h1, by omega, h2, by omega⟩

/-- C3 (amended): a `start()` that runs to completion without cancellation
emits exactly `focusSeconds + 1` Focus updates (remaining `focusSeconds`
down to `1`, then the final `00:00`), then exactly `restSeconds + 1` Rest
updates likewise, where `focusSeconds = focus_minutes * 60` and
`restSeconds = rest_minutes * 60`; within each phase the `remaining`
values are strictly decreasing and end at `0`, and every update is
formatted from its `remaining` value via `divmod(remaining, 60)` with
zero-padded two-digit fields. -/
theorem run_update_sequence (f r : Int) (m : Bool) (audio : Option String) :
    (run_focus_timer f r m audio).events
        = ((countdownRems (f * 60).toNat).map (fun k => SEvent.upd (timeStr "Focus" k)))
          ++ (if m = false then [SEvent.soundAttempt SOUND_FILE_PATH] else [])
          ++ ((countdownRems (r * 60).toNat).map (fun k => SEvent.upd (timeStr "Rest" k)))
    ∧ (countdownRems (f * 60).toNat).length = (f * 60).toNat + 1
    ∧ (countdownRems (r * 60).toNat).length = (r * 60).toNat + 1
    ∧ List.Pairwise (· > ·) (countdownRems (f * 60).toNat)
    ∧ List.Pairwise (· > ·) (countdownRems (r * 60).toNat)
    ∧ (countdownRems (f * 60).toNat).getLast? = some 0
    ∧ (countdownRems (r * 60).toNat).getLast? = some 0 := by
  refine ⟨?_, countdownRems_length _, countdownRems_length _,
    countdownRems_sorted _, countdownRems_sorted _,
    countdownRems_last _, countdownRems_last _⟩
  cases m <;>
    simp [run_focus_timer, countdown_eq_rems_map, List.map_map, Function.comp_def]

/-! ### C5: configuration validation -/

/-- C5 fails on the code: `submit_config` only catches `ValueError` from
`int()`, so the non-positive integer input `"0"` is accepted, the
user-visible message is the success message, and the configuration state
is changed to the non-positive value. -/
theorem nonpositive_config_accepted :
    pyInt "0" = some 0
    ∧ (0 : Int) ≤ 0
    ∧ submit_config "0" "5" { focus_minutes := 25, rest_minutes := 10 }
        = ({ focus_minutes := 0, rest_minutes := 5 }, "Settings updated!")
    ∧ ({ focus_minutes := 0, rest_minutes := 5 } : AppConfig)
        ≠ { focus_minutes := 25, rest_minutes := 10 } := by
  refine ⟨by decide, by decide, by decide, by decide⟩

/-- C5 (amended): non-integer input is rejected with the user-visible
message `"Please enter valid integers."` and the configuration is left
unchanged; but any integer input — including zero and negative values —
is accepted and stored verbatim, and `start()` runs even with a
non-positive duration, its countdown emitting only the final `00:00`
update for that phase. -/
theorem submit_config_validation (focusText restText : String) (cfg : AppConfig) :
    ((pyInt focusText = none ∨ pyInt restText = none) →
      submit_config focusText restText cfg = (cfg, "Please enter valid integers."))
    ∧ (∀ nf nr : Int, pyInt focusText = some nf → pyInt restText = some nr →
      submit_config focusText restText cfg
        = ({ focus_minutes := nf, rest_minutes := nr }, "Settings updated!"))
    ∧ countdown 0 "Focus" = ["Focus Time Left: 00:00"]
    ∧ (run_focus_timer 0 0 true none).events
        = [SEvent.upd "Focus Time Left: 00:00", SEvent.upd "Rest Time Left: 00:00"] := by
  refine ⟨?_, ?_, rfl, rfl⟩
  · rintro (h | h)
    · simp [submit_config, h]
    · cases hf : pyInt focusText <;> simp [submit_config, hf, h]
  · intro nf nr hf hr
    simp [submit_config, hf, hr]

/-! ### C6: target submission validation -/

/-- C6: an entry text that is empty after stripping (for instance `""` or
`"   "`) produces the warning and writes nothing, leaving the log length
unchanged; a non-empty stripped text appends exactly one record stamped
with the given date and time strings. -/
theorem add_target_validation (entry date_str time_str : String)
    (file : List (List String)) :
    (pyStrip entry = "" →
      add_target entry date_str time_str file = (file, some "Please enter a target.")
      ∧ (add_target entry date_str time_str file).1.length = file.length)
    ∧ (pyStrip entry ≠ "" →
      add_target entry date_str time_str file
        = (file ++ [[date_str, time_str, pyStrip entry]], none)
      ∧ (add_target entry date_str time_str file).1.length = file.length + 1)
    ∧ add_target "" date_str time_str file = (file, some "Please enter a target.")
    ∧ add_target "   " date_str time_str file = (file, some "Please enter a target.") := by
  refine ⟨?_, ?_, ?_, ?_⟩
  · intro h; constructor <;> simp [add_target, h]
  · intro h; constructor <;> simp [add_target, h]
  · simp [add_target, show pyStrip "" = "" from rfl]
  · simp [add_target, show pyStrip "   " = "" from rfl]

/-! ### C7: search returns exactly the case-insensitive matches -/

/-- A well-formed log entry, as the spec's TargetEntry. -/
structure TargetEntry where
  date : String
  time : String
  target : String
deriving DecidableEq, Repr

/-- The CSV record of an entry. -/
def entryRow (e : TargetEntry) : List String := [e.date, e.time, e.target]

/-- The listbox line `_search_targets` renders for an entry. -/
def entryLine (e : TargetEntry) : String :=
  e.date ++ " " ++ e.time ++ " - " ++ e.target

/-- Case-insensitive containment of the query, as the code computes it. -/
def entryMatches (q : String) (e : TargetEntry) : Bool :=
  pyIn (pyLower q) (pyLower e.target)

/-- On well-formed records the search loop is exactly the
order-preserving filter by case-insensitive containment. -/
theorem search_rows_map (q : String) (entries : List TargetEntry) :
    search_rows q (entries.map entryRow)
      = .ok ((entries.filter (entryMatches q)).map entryLine) := by
  induction entries with
  | nil => rfl
  | cons e rest ih =>
    simp only [List.map_cons, search_rows, entryRow, ih, List.filter_cons]
    cases h : entryMatches q e <;>
      simp_all [entryMatches, entryLine]

/-- C7: on any well-formed store, `search` returns exactly the entries
whose text contains the query case-insensitively, in storage order; the
empty query matches every entry; and the concrete round trip of the
claim: after appending one entry `"Write spec"`, searching `"spec"` and
`"SPEC"` each return exactly that entry and `"zzz"` returns nothing. -/
theorem search_returns_ci_matches (q : String) (header : List String)
    (entries : List TargetEntry) :
    search_targets q (header :: entries.map entryRow)
        = .ok ((entries.filter (entryMatches q)).map entryLine)
    ∧ search_targets "" (header :: entries.map entryRow)
        = .ok (entries.map entryLine)
    ∧ search_targets "spec"
        ((add_target "Write spec" "2025-01-01" "09:00:00" [["Date", "Time", "Target"]]).1)
        = .ok ["2025-01-01 09:00:00 - Write spec"]
    ∧ search_targets "SPEC"
        ((add_target "Write spec" "2025-01-01" "09:00:00" [["Date", "Time", "Target"]]).1)
        = .ok ["2025-01-01 09:00:00 - Write spec"]
    ∧ search_targets "zzz"
        ((add_target "Write spec" "2025-01-01" "09:00:00" [["Date", "Time", "Target"]]).1)
        = .ok [] := by
  refine ⟨search_rows_map q entries, ?_, rfl, rfl, rfl⟩
  have hall : entries.filter (entryMatches "") = entries := by
    apply List.filter_eq_self.mpr
    intro e _
    have h0 : pyLower "" = "" := rfl
    simpa [entryMatches, h0] using pyIn_empty_left (pyLower e.target)
  simpa [hall] using search_rows_map "" entries

/-! ### C8: most recent target -/

/-- Reading the last target of a file that ends in a full record yields
that record's target field. -/
theorem get_last_target_concat (hdr : List String) (l : List (List String))
    (d t x : String) :
    get_last_target (some (hdr :: (l ++ [[d, t, x]]))) = .ok (some x) := by
  simp [get_last_target]

/-- C8: `_get_last_target` on a log with no data records (or no file at
all) returns `None` rather than raising; after appending entries E1 then
E2 through `add_target`, it returns E2's target text. -/
theorem most_recent_of_log (hdr : List String) (rows : List (List String))
    (e1 d1 t1 e2 d2 t2 : String) (h2 : pyStrip e2 ≠ "") :
    get_last_target none = .ok none
    ∧ get_last_target (some [hdr]) = .ok none
    ∧ get_last_target (some ((add_target e2 d2 t2
        ((add_target e1 d1 t1 (hdr :: rows)).1)).1)) = .ok (some (pyStrip e2)) := by
  refine ⟨rfl, rfl, ?_⟩
  by_cases h1 : pyStrip e1 = ""
  · have : (add_target e1 d1 t1 (hdr :: rows)).1 = hdr :: rows := by
      simp [add_target, h1]
    rw [this]
    have : (add_target e2 d2 t2 (hdr :: rows)).1
        = hdr :: (rows ++ [[d2, t2, pyStrip e2]]) := by
      simp [add_target, h2]
    rw [this, get_last_target_concat]
  · have : (add_target e1 d1 t1 (hdr :: rows)).1
        = hdr :: (rows ++ [[d1, t1, pyStrip e1]]) := by
      simp [add_target, h1]
    rw [this]
    have : (add_target e2 d2 t2 (hdr :: (rows ++ [[d1, t1, pyStrip e1]]))).1
        = hdr :: ((rows ++ [[d1, t1, pyStrip e1]]) ++ [[d2, t2, pyStrip e2]]) := by
      simp [add_target, h2]
    rw [this, get_last_target_concat]

/-- Witness for `most_recent_of_log` at the concrete entries `"Read"`
then `"Write spec"`. -/
theorem most_recent_of_log_witness :
    get_last_target none = .ok none
    ∧ get_last_target (some [["Date", "Time", "Target"]]) = .ok none
    ∧ get_last_target (some ((add_target "Write spec" "2025-01-02" "10:00:00"
        ((add_target "Read" "2025-01-01" "09:00:00"
          (["Date", "Time", "Target"] :: []))).1).1)) = .ok (some (pyStrip "Write spec")) :=
  most_recent_of_log ["Date", "Time", "Target"] [] "Read" "2025-01-01" "09:00:00"
    "Write spec" "2025-01-02" "10:00:00" (by decide)

/-! ### C9: the Focus→Rest boundary notification -/

/-- C9: when the run reaches the boundary unmuted, the playback of the
fixed file `alert.mp3` is requested; a playback failure is caught and
logged (never propagated) and the Rest countdown still runs; when muted,
no playback is requested. -/
theorem boundary_sound_behavior (f r : Int) (audio : Option String) (e : String) :
    (run_focus_timer f r false audio).events
        = (countdown (f * 60).toNat "Focus").map SEvent.upd
          ++ [SEvent.soundAttempt SOUND_FILE_PATH]
          ++ (countdown (r * 60).toNat "Rest").map SEvent.upd
    ∧ (run_focus_timer f r true audio).events
        = (countdown (f * 60).toNat "Focus").map SEvent.upd
          ++ (countdown (r * 60).toNat "Rest").map SEvent.upd
    ∧ (run_focus_timer f r false (some e)).logs = ["Error playing sound: " ++ e]
    ∧ (run_focus_timer f r false none).logs = []
    ∧ (run_focus_timer f r true (some e)).logs = []
    ∧ SEvent.upd "Rest Time Left: 00:00" ∈ (run_focus_timer f r false (some e)).events := by
  refine ⟨by simp [run_focus_timer], by simp [run_focus_timer],
    by simp [run_focus_timer, play_sound], by simp [run_focus_timer, play_sound],
    by simp [run_focus_timer], ?_⟩
  simp only [run_focus_timer, List.mem_append, List.mem_map]
  right
  exact ⟨"Rest Time Left: 00:00", by simp [countdown], rfl⟩

/-! ### C10: totality of the search scan -/

/-- The row loop returns normally exactly when every record has exactly
three fields. -/
theorem search_rows_ok_iff (q : String) (rows : List (List String)) :
    okB (search_rows q rows) = true ↔ ∀ row ∈ rows, row.length = 3 := by
  induction rows with
  | nil => simp [search_rows, okB]
  | cons row rest ih =>
    match row with
    | [] => simp [search_rows, okB]
    | [a] => simp [search_rows, okB]
    | [a, b] => simp [search_rows, okB]
    | [a, b, c] =>
      have hsame : okB (search_rows q ([a, b, c] :: rest)) = okB (search_rows q rest) := by
        simp only [search_rows]
        cases h : search_rows q rest with
        | ok lines => cases hq : pyIn (pyLower q) (pyLower c) <;> simp [okB]
        | error e => simp [okB]
      rw [hsame, ih]
      simp
    | a :: b :: c :: d :: tl => simp [search_rows, okB]

/-- C10: `_search_targets` raises on an empty backing file
(`next(reader)` finds no header) and on any record whose field count is
not three (tuple unpacking), and returns normally exactly when the file
has a header record and every data record has exactly three fields. -/
theorem search_targets_total_iff (q : String) (file : List (List String)) :
    okB (search_targets q file) = true
      ↔ (file ≠ [] ∧ ∀ row ∈ file.drop 1, row.length = 3) := by
  cases file with
  | nil => simp [search_targets, okB]
  | cons hdr records =>
    simp only [search_targets, List.drop_succ_cons, List.drop_zero]
    rw [search_rows_ok_iff]
    simp

/-! ### C1: a superseding `start_focus` does not invalidate the old run

`start_focus` executes `stop_event.set()` immediately followed by
`stop_event.clear()` without waiting for the running thread to observe
the flag.  A thread inside its one-second `time.sleep` misses the
microseconds-wide window, later polls the already-cleared flag, and keeps
emitting updates interleaved with the new run's. -/

/-- Initial state: fresh app with `focus_minutes = rest_minutes = 1`,
muted, no thread yet. -/
def c1Init : Sys :=
  { stop_event := false, focus_minutes := 1, rest_minutes := 1,
    mute_sound := true, main_pc := .idle, threads := [], next_run := 0,
    events := [] }

/-- The interleaving: first `start_focus` (run 0); run 0 emits its first
update and sleeps; second `start_focus` (run 1) sets and clears the flag
while run 0 sleeps; run 1 emits its first update; run 0 wakes, polls the
cleared flag and emits again. -/
def c1Acts : List Act :=
  [.startSet, .startClear, .startSpawn,
   .thr 0, .thr 0, .thr 0,
   .startSet, .startClear, .startSpawn,
   .thr 1, .thr 1, .thr 1,
   .thr 0, .thr 0]

/-- C1 fails on the code: in the schedule `c1Acts` the superseded run 0
emits the update for `remaining = 59` after the new run 1 has emitted its
first update, so the prior run's ticks are not invalidated. -/
theorem stale_update_after_new_run :
    (run_acts c1Init c1Acts).events
      = [.update 0 .Focus 60, .sleepE 0, .update 1 .Focus 60, .sleepE 1,
         .update 0 .Focus 59, .sleepE 0]
    ∧ noStaleAfter 0 1 (run_acts c1Init c1Acts).events = false := by
  exact ⟨by decide, by decide⟩

/-! ### C4: the configuration is not snapshotted at start -/

/-- Initial state for the C4 schedules. -/
def c4Init : Sys :=
  { stop_event := false, focus_minutes := 1, rest_minutes := 1,
    mute_sound := true, main_pc := .idle, threads := [], next_run := 0,
    events := [] }

/-- One `start_focus`, five thread steps, then (on the edited schedule) a
`submit_config` write changing `rest_minutes` from 1 to 2, then enough
thread steps to reach the first Rest update. -/
def c4ActsEdited : List Act :=
  [.startSet, .startClear, .startSpawn] ++ List.replicate 5 (Act.thr 0)
    ++ [.setConfig 1 2] ++ List.replicate 121 (Act.thr 0)

/-- The same schedule without the configuration edit. -/
def c4ActsPlain : List Act :=
  [.startSet, .startClear, .startSpawn] ++ List.replicate 126 (Act.thr 0)

/-- C4 fails on the code: editing the configuration after `start()` (the
only difference between the two schedules) changes the already-running
run's Rest phase — with the edit the run starts its Rest countdown at
`remaining = 120` (the new `rest_minutes * 60`), without it at
`remaining = 60`. -/
theorem config_edit_changes_running_run :
    Event.update 0 .Rest 120 ∈ (run_acts c4Init c4ActsEdited).events
    ∧ ¬ Event.update 0 .Rest 120 ∈ (run_acts c4Init c4ActsPlain).events
    ∧ Event.update 0 .Rest 60 ∈ (run_acts c4Init c4ActsPlain).events
    ∧ (run_acts c4Init c4ActsEdited).events ≠ (run_acts c4Init c4ActsPlain).events := by
  exact ⟨by decide, by decide, by decide, by decide⟩

/-- C4 (amended): the run holds no configuration snapshot; each value is
read from the shared mutable state at the moment the code uses it —
`focus_minutes` when the spawned thread starts, `rest_minutes` and
`mute_sound` at the Focus→Rest boundary — so configuration edits that
land after `start()` but before the corresponding read change the
already-running run's durations and muting. -/
theorem config_read_at_use (s : Sys) (t : TimerThread) :
    (t.pc = .readTotal →
      tstep s t = ({ t with pc := .cdCheck .Focus (s.focus_minutes * 60).toNat }, []))
    ∧ (t.pc = .restGate → s.stop_event = false →
      tstep s t = ({ t with pc := .cdCheck .Rest (s.rest_minutes * 60).toNat }, []))
    ∧ (t.pc = .soundGate → s.stop_event = false →
      tstep s t = ({ t with pc := if s.mute_sound then .restGate else .playing }, [])) := by
  refine ⟨?_, ?_, ?_⟩
  · intro h; simp [tstep, h]
  · intro h hs; simp [tstep, h, hs]
  · intro h hs
    cases hm : s.mute_sound <;> simp [tstep, h, hs, hm]

/-! ### C2: cancellation stops a Focus run

`cancel()` (spec-modelled as `stop_event.set()` with no new start) is
polled at every loop head — the one-second tick is the only suspension
point — so once the flag is set a thread still inside its Focus countdown
can emit at most the in-flight iteration's update and, when the range was
already exhausted, the unguarded final `00:00`; it sleeps at most once
more and never reaches the playback request. -/

/-- A thread step never changes the thread's run tag. -/
theorem tstep_run_eq (s : Sys) (t : TimerThread) : (tstep s t).1.run = t.run := by
  obtain ⟨rn, pc⟩ := t
  cases pc with
  | readTotal => rfl
  | cdCheck ph k =>
    cases k with
    | zero => rfl
    | succ n => simp only [tstep]; split <;> rfl
  | cdEmit ph k => rfl
  | soundGate => simp only [tstep]; split <;> rfl
  | playing => rfl
  | restGate => simp only [tstep]; split <;> rfl
  | done => rfl

/-- Every event a thread step emits is tagged with that thread's run. -/
theorem tstep_events_run (s : Sys) (t : TimerThread) :
    ∀ e ∈ (tstep s t).2, eventRun e = t.run := by
  obtain ⟨rn, pc⟩ := t
  cases pc with
  | readTotal => simp [tstep]
  | cdCheck ph k =>
    cases k with
    | zero => simp [tstep, eventRun]
    | succ n => simp only [tstep]; split <;> simp
  | cdEmit ph k => simp [tstep, eventRun]
  | soundGate => simp only [tstep]; split <;> simp
  | playing => simp [tstep, eventRun]
  | restGate => simp only [tstep]; split <;> simp
  | done => simp [tstep]

/-- An update classified into run `r` is tagged `r`. -/
theorem updOf_run (r : Nat) (e : Event) (h : updOf r e = true) : eventRun e = r := by
  cases e <;> simp [updOf, eventRun] at * <;> omega

/-- A sleep classified into run `r` is tagged `r`. -/
theorem sleepOf_run (r : Nat) (e : Event) (h : sleepOf r e = true) : eventRun e = r := by
  cases e <;> simp [sleepOf, eventRun] at * <;> omega

/-- A playback request classified into run `r` is tagged `r`. -/
theorem soundOf_run (r : Nat) (e : Event) (h : soundOf r e = true) : eventRun e = r := by
  cases e <;> simp [soundOf, eventRun] at * <;> omega

/-- Events of a foreign run contribute nothing to run `r`'s filters. -/
theorem filters_of_foreign (r : Nat) (evs : List Event)
    (h : ∀ e ∈ evs, eventRun e ≠ r) :
    evs.filter (updOf r) = [] ∧ evs.filter (sleepOf r) = []
    ∧ evs.filter (soundOf r) = [] := by
  refine ⟨?_, ?_, ?_⟩ <;>
    · rw [List.filter_eq_nil_iff]
      intro e he hcl
      exact h e he (by
        first
        | exact updOf_run r e hcl
        | exact sleepOf_run r e hcl
        | exact soundOf_run r e hcl)

/-- Replacing one list element while paying `c` into a cost that the
element's `f`-value covers does not increase the mapped sum. -/
theorem sum_map_set_le (f : TimerThread → Nat) :
    ∀ (ts : List TimerThread) (j : Nat) (t t' : TimerThread) (c : Nat),
      ts[j]? = some t → f t' + c ≤ f t →
      ((ts.set j t').map f).sum + c ≤ (ts.map f).sum := by
  intro ts
  induction ts with
  | nil => intro j t t' c h _; simp at h
  | cons hd tl ih =>
    intro j t t' c h hle
    cases j with
    | zero =>
      simp only [List.getElem?_cons_zero, Option.some.injEq] at h
      subst h
      simp only [List.set_cons_zero, List.map_cons, List.sum_cons]
      omega
    | succ n =>
      simp only [List.getElem?_cons_succ] at h
      have := ih n t t' c h hle
      simp only [List.set_cons_succ, List.map_cons, List.sum_cons]
      omega

/-- With the stop flag set, one thread step pays its emitted updates and
sleeps out of the `ub`/`sb` budgets, emits no playback request of its own
run, and never enters `_play_sound`. -/
theorem tstep_budget (s : Sys) (t : TimerThread) (hstop : s.stop_event = true)
    (hpc : t.pc ≠ .playing) :
    ub (tstep s t).1.pc + ((tstep s t).2.filter (updOf t.run)).length ≤ ub t.pc
    ∧ sb (tstep s t).1.pc + ((tstep s t).2.filter (sleepOf t.run)).length ≤ sb t.pc
    ∧ (tstep s t).2.filter (soundOf t.run) = []
    ∧ (tstep s t).1.pc ≠ .playing := by
  obtain ⟨rn, pc⟩ := t
  cases pc with
  | readTotal =>
    simp only [tstep]
    refine ⟨?_, by simp [sb, ub], by simp [soundOf], by simp⟩
    rcases h : (s.focus_minutes * 60).toNat with _ | n <;> simp [ub]
  | cdCheck ph k =>
    cases k with
    | zero =>
      cases ph <;>
        simp [tstep, ub, sb, updOf, sleepOf, soundOf]
    | succ n =>
      simp only [tstep, hstop, if_true]
      cases ph <;>
        simp [ub, sb, updOf, sleepOf, soundOf]
  | cdEmit ph k =>
    simp only [tstep]
    refine ⟨?_, ?_, by simp [soundOf, updOf, sleepOf], by simp⟩
    · rcases k with _ | _ | n <;>
        simp [ub, updOf, sleepOf, List.filter]
    · rcases k with _ | _ | n <;>
        simp [sb, updOf, sleepOf, List.filter]
  | soundGate =>
    simp only [tstep, hstop]
    simp [ub, sb]
  | playing => exact absurd rfl hpc
  | restGate =>
    simp only [tstep, hstop, if_true]
    simp [ub, sb]
  | done => simp [tstep, ub, sb]

/-- Effect of one scheduler step on run `r`'s budgets, once the stop flag
is set and no superseding start is taken: the flag stays set, no thread
of run `r` enters `_play_sound`, and the emitted events are paid for by
the decrease of the budgets. -/
theorem step_effect (s : Sys) (a : Act) (r : Nat)
    (hstop : s.stop_event = true) (ha : noNewStart a = true)
    (hnp : ∀ t ∈ s.threads, t.run = r → t.pc ≠ .playing) :
    (step s a).stop_event = true
    ∧ (∀ t ∈ (step s a).threads, t.run = r → t.pc ≠ .playing)
    ∧ ∃ evs, (step s a).events = s.events ++ evs
        ∧ sumUb r (step s a).threads + (evs.filter (updOf r)).length ≤ sumUb r s.threads
        ∧ sumSb r (step s a).threads + (evs.filter (sleepOf r)).length ≤ sumSb r s.threads
        ∧ evs.filter (soundOf r) = [] := by
  cases a with
  | startClear => simp [noNewStart] at ha
  | startSpawn => simp [noNewStart] at ha
  | startSet =>
    refine ⟨?_, ?_, [], ?_, ?_, ?_, rfl⟩ <;>
      · simp only [step]
        split <;> simp_all
  | cancel =>
    exact ⟨rfl, hnp, [], by simp [step], by simp [step, sumUb], by simp [step, sumSb], rfl⟩
  | setConfig f rm =>
    exact ⟨hstop, hnp, [], by simp [step], by simp [step, sumUb], by simp [step, sumSb], rfl⟩
  | setMute b =>
    exact ⟨hstop, hnp, [], by simp [step], by simp [step, sumUb], by simp [step, sumSb], rfl⟩
  | thr i =>
    cases hidx : s.threads[i]? with
    | none =>
      have hs : step s (.thr i) = s := by simp [step, hidx]
      rw [hs]
      exact ⟨hstop, hnp, [], by simp, by simp, by simp, rfl⟩
    | some t =>
      have hmem : t ∈ s.threads := List.getElem?_mem hidx
      have hstep : step s (.thr i)
          = { s with threads := s.threads.set i (tstep s t).1,
                     events := s.events ++ (tstep s t).2 } := by
        simp [step, hidx]
      rw [hstep]
      by_cases hr : t.run = r
      · have hb := tstep_budget s t hstop (hnp t hmem hr)
        have hrun' : (tstep s t).1.run = r := by rw [tstep_run_eq]; exact hr
        refine ⟨hstop, ?_, (tstep s t).2, rfl, ?_, ?_, ?_⟩
        · intro t'' hmem'' hrun''
          rcases List.mem_or_eq_of_mem_set hmem'' with h'' | h''
          · exact hnp t'' h'' hrun''
          · subst h''; exact hb.2.2.2
        · have := sum_map_set_le (ubOf r) s.threads i t (tstep s t).1
            (((tstep s t).2.filter (updOf r)).length) hidx
            (by simp only [ubOf, hrun', hr, if_true, if_pos]; rw [← hr]; exact hb.1)
          simpa [sumUb] using this
        · have := sum_map_set_le (sbOf r) s.threads i t (tstep s t).1
            (((tstep s t).2.filter (sleepOf r)).length) hidx
            (by simp only [sbOf, hrun', hr, if_true, if_pos]; rw [← hr]; exact hb.2.1)
          simpa [sumSb] using this
        · rw [← hr]; exact hb.2.2.1
      · have hforeign : ∀ e ∈ (tstep s t).2, eventRun e ≠ r := by
          intro e he
          rw [tstep_events_run s t e he]
          exact hr
        obtain ⟨hf1, hf2, hf3⟩ := filters_of_foreign r (tstep s t).2 hforeign
        have hrun' : (tstep s t).1.run ≠ r := by rw [tstep_run_eq]; exact hr
        refine ⟨hstop, ?_, (tstep s t).2, rfl, ?_, ?_, hf3⟩
        · intro t'' hmem'' hrun''
          rcases List.mem_or_eq_of_mem_set hmem'' with h'' | h''
          · exact hnp t'' h'' hrun''
          · subst h''; exact absurd hrun'' hrun'
        · have := sum_map_set_le (ubOf r) s.threads i t (tstep s t).1 0 hidx
            (by simp [ubOf, hrun', hr])
          simpa [sumUb, hf1] using this
        · have := sum_map_set_le (sbOf r) s.threads i t (tstep s t).1 0 hidx
            (by simp [sbOf, hrun', hr])
          simpa [sumSb, hf2] using this

/-- Once the stop flag is set, along any schedule with no superseding
`start_focus`, the events appended to the log contain at most `sumUb`
updates and `sumSb` sleeps of run `r`, and no playback request of run
`r`, provided no thread of run `r` is already inside `_play_sound`. -/
theorem run_acts_cancel_bound (acts : List Act) :
    ∀ (s : Sys) (r : Nat),
      s.stop_event = true →
      (∀ a ∈ acts, noNewStart a = true) →
      (∀ t ∈ s.threads, t.run = r → t.pc ≠ .playing) →
      ∃ post, (run_acts s acts).events = s.events ++ post
        ∧ (post.filter (updOf r)).length ≤ sumUb r s.threads
        ∧ (post.filter (sleepOf r)).length ≤ sumSb r s.threads
        ∧ post.filter (soundOf r) = [] := by
  induction acts with
  | nil =>
    intro s r _ _ _
    exact ⟨[], by simp [run_acts], by simp, by simp, rfl⟩
  | cons a rest ih =>
    intro s r hstop hacts hnp
    have ha : noNewStart a = true := hacts a (List.mem_cons_self a rest)
    obtain ⟨hstop', hnp', evs, hev, hub, hsb, hsound⟩ :=
      step_effect s a r hstop ha hnp
    obtain ⟨post', hp1, hp2, hp3, hp4⟩ :=
      ih (step s a) r hstop' (fun b hb => hacts b (List.mem_cons_of_mem a hb)) hnp'
    refine ⟨evs ++ post', ?_, ?_, ?_, ?_⟩
    · show (run_acts (step s a) rest).events = _
      rw [hp1, hev, List.append_assoc]
    · rw [List.filter_append, List.length_append]
      omega
    · rw [List.filter_append, List.length_append]
      omega
    · rw [List.filter_append, hsound, hp4]
      rfl

/-- A program counter inside the Focus countdown carries budgets of at
most two updates and one sleep, and is not inside `_play_sound`. -/
theorem focus_budget (pc : TPc) (h : inFocusCountdown pc = true) :
    ub pc ≤ 2 ∧ sb pc ≤ 1 ∧ pc ≠ .playing := by
  cases pc with
  | readTotal => simp [ub, sb]
  | cdCheck ph k =>
    cases ph with
    | Focus => rcases k with _ | n <;> simp [ub, sb]
    | Rest => simp [inFocusCountdown] at h
  | cdEmit ph k =>
    cases ph with
    | Focus => rcases k with _ | _ | n <;> simp [ub, sb]
    | Rest => simp [inFocusCountdown] at h
  | soundGate => simp [inFocusCountdown] at h
  | playing => simp [inFocusCountdown] at h
  | restGate => simp [inFocusCountdown] at h
  | done => simp [inFocusCountdown] at h

/-- When at most one live thread belongs to run `r` and every thread of
run `r` is inside its Focus countdown, the total budgets of run `r` are
at most two updates and one sleep. -/
theorem sum_budget_of_unique (r : Nat) (ts : List TimerThread)
    (huniq : ts.countP (fun t => t.run == r) ≤ 1)
    (hfoc : ∀ t ∈ ts, t.run = r → inFocusCountdown t.pc = true) :
    sumUb r ts ≤ 2 ∧ sumSb r ts ≤ 1
    ∧ (∀ t ∈ ts, t.run = r → t.pc ≠ .playing) := by
  induction ts with
  | nil => exact ⟨by simp [sumUb], by simp [sumSb], by simp⟩
  | cons hd tl ih =>
    rw [List.countP_cons] at huniq
    by_cases hr : hd.run = r
    · have hone : tl.countP (fun t => t.run == r) = 0 := by
        simp only [hr, beq_self_eq_true, if_true] at huniq
        omega
      have htl : ∀ t ∈ tl, t.run ≠ r := by
        intro t ht
        have := List.countP_eq_zero.mp hone t ht
        simpa using this
      have htlub : sumUb r tl = 0 := by
        apply List.sum_eq_zero
        intro x hx
        obtain ⟨t, ht, hxe⟩ := List.mem_map.mp hx
        rw [← hxe]
        simp [ubOf, htl t ht]
      have htlsb : sumSb r tl = 0 := by
        apply List.sum_eq_zero
        intro x hx
        obtain ⟨t, ht, hxe⟩ := List.mem_map.mp hx
        rw [← hxe]
        simp [sbOf, htl t ht]
      obtain ⟨hu2, hs1, hnpl⟩ :=
        focus_budget hd.pc (hfoc hd (List.mem_cons_self hd tl) hr)
      refine ⟨?_, ?_, ?_⟩
      · have : sumUb r (hd :: tl) = ubOf r hd + sumUb r tl := by simp [sumUb]
        rw [this, htlub]
        simp only [ubOf, hr, if_pos]
        omega
      · have : sumSb r (hd :: tl) = sbOf r hd + sumSb r tl := by simp [sumSb]
        rw [this, htlsb]
        simp only [sbOf, hr, if_pos]
        omega
      · intro t ht hrt
        rcases List.mem_cons.mp ht with h | h
        · subst h; exact hnpl
        · exact absurd hrt (htl t h)
    · have huniq' : tl.countP (fun t => t.run == r) ≤ 1 := by
        by_cases hb : (hd.run == r) = true
        · exact absurd (by simpa using hb) hr
        · simp only [hb, if_false] at huniq
          omega
      obtain ⟨hu, hs, hnp⟩ := ih huniq'
        (fun t ht hrt => hfoc t (List.mem_cons_of_mem hd ht) hrt)
      refine ⟨?_, ?_, ?_⟩
      · have : sumUb r (hd :: tl) = ubOf r hd + sumUb r tl := by simp [sumUb]
        rw [this]
        simp only [ubOf, hr, if_neg, if_false]
        omega
      · have : sumSb r (hd :: tl) = sbOf r hd + sumSb r tl := by simp [sumSb]
        rw [this]
        simp only [sbOf, hr, if_neg, if_false]
        omega
      · intro t ht hrt
        rcases List.mem_cons.mp ht with h | h
        · subst h; exact absurd hrt hr
        · exact hnp t h hrt

/-- C2 (spec-modelled `cancel`): once cancellation is requested
(`stop_event` set) and no superseding `start_focus` follows, a run still
inside its Focus countdown emits at most two further label updates (the
in-flight iteration's and, when the loop was already on its last value,
the unguarded final `00:00`), passes through at most one further
one-second sleep — the only suspension point, where the flag is polled —
and never triggers the Focus→Rest playback request. -/
theorem cancel_stops_focus_run (s : Sys) (r : Nat) (acts : List Act)
    (hstop : s.stop_event = true)
    (hacts : ∀ a ∈ acts, noNewStart a = true)
    (huniq : s.threads.countP (fun t => t.run == r) ≤ 1)
    (hfoc : ∀ t ∈ s.threads, t.run = r → inFocusCountdown t.pc = true) :
    ∃ post, (run_acts s acts).events = s.events ++ post
      ∧ (post.filter (updOf r)).length ≤ 2
      ∧ (post.filter (sleepOf r)).length ≤ 1
      ∧ post.filter (soundOf r) = [] := by
  obtain ⟨hub, hsb, hnp⟩ := sum_budget_of_unique r s.threads huniq hfoc
  obtain ⟨post, h1, h2, h3, h4⟩ := run_acts_cancel_bound acts s r hstop hacts hnp
  exact ⟨post, h1, le_trans h2 hub, le_trans h3 hsb, h4⟩

/-- A cancelled state: one thread of run 0, already past the tick check
of its last Focus iteration, with the stop flag set. -/
def c2State : Sys :=
  { stop_event := true, focus_minutes := 1, rest_minutes := 1,
    mute_sound := false, main_pc := .idle,
    threads := [{ run := 0, pc := .cdEmit .Focus 1 }], next_run := 1,
    events := [] }

/-- A schedule after cancellation: the thread runs on; a redundant
`cancel` and a configuration edit interleave. -/
def c2Acts : List Act :=
  [.thr 0, .cancel, .thr 0, .setConfig 3 4, .thr 0, .thr 0, .thr 0]

/-- Witness for `cancel_stops_focus_run` at the concrete cancelled state
`c2State` under the schedule `c2Acts`. -/
theorem cancel_stops_focus_run_witness :
    ∃ post, (run_acts c2State c2Acts).events = c2State.events ++ post
      ∧ (post.filter (updOf 0)).length ≤ 2
      ∧ (post.filter (sleepOf 0)).length ≤ 1
      ∧ post.filter (soundOf 0) = [] :=
  cancel_stops_focus_run c2State 0 c2Acts rfl (by decide) (by decide) (by decide)
